import Mathlib

/-!
Shallow embedding of `src/flicker_core.py` (flickering-toolbox).

Python floats are modelled as rationals (`ℚ`): every operation the code
performs on them (division, subtraction, comparison, `round`, `int`,
`math.ceil`) is exact on the inputs the claims quantify over, so the
rational model coincides with the float semantics there.  Python `int`s
are modelled as `ℤ` (or `ℕ` where the source value is a count).
Fallible code paths (`assert`, `ZeroDivisionError`, `math.sqrt` domain
errors) are modelled with `Except FlickerError`.
-/

/-- Error outcomes of the Python code.  Each constructor records which
raise-site of `flicker_core.py` (or of the Python runtime) fires, carrying
the data interpolated into its message:

* `invalidRefreshRate v` — `assert refresh_rate > 0` fails (`AssertionError`,
  message names `refresh_rate` and reports `v`);
* `invalidMinFrames v` — `assert min_frames_per_cycle > 0` fails;
* `invalidNStim v` — `assert n_stim > 0` fails;
* `insufficientRange maxAllowed` — the range assert in
  `calculate_frequencies` fails; its message is
  "Too many stimuli provided... Maximum number of allowed stimuli is
  {refresh_rate - min_frames_per_cycle + 1}", so the carried value is that
  reported maximum;
* `sqrtDomain` — `math.sqrt` of a negative number (`ValueError`);
* `zeroDivision` — division by zero (`ZeroDivisionError`). -/
inductive FlickerError where
  | invalidRefreshRate (value : ℚ)
  | invalidMinFrames (value : ℤ)
  | invalidNStim (value : ℤ)
  | insufficientRange (maxAllowed : ℚ)
  | sqrtDomain
  | zeroDivision
  deriving DecidableEq

/-- Python `int(x)` on a float: truncation toward zero. -/
def pyInt (x : ℚ) : ℤ :=
  if x < 0 then -⌊-x⌋ else ⌊x⌋

/-- Python `round(x)` on a float, `ndigits` omitted: round half to even. -/
def pythonRound (x : ℚ) : ℤ :=
  if x - ⌊x⌋ < 1/2 then ⌊x⌋
  else if 1/2 < x - ⌊x⌋ then ⌊x⌋ + 1
  else if ⌊x⌋ % 2 = 0 then ⌊x⌋ else ⌊x⌋ + 1

/-- `calculate_frequencies` from `flicker_core.py`: four asserts, then
`divisors = list(range(min_frames_per_cycle, int(refresh_rate) + 1))`,
`stable_freqs = [refresh_rate / d for d in divisors]`, and
`return stable_freqs[:n_stim]`. -/
def calculate_frequencies (refresh_rate : ℚ) (min_frames_per_cycle n_stim : ℤ) :
    Except FlickerError (List ℚ) :=
  if refresh_rate ≤ 0 then .error (.invalidRefreshRate refresh_rate)
  else if min_frames_per_cycle ≤ 0 then .error (.invalidMinFrames min_frames_per_cycle)
  else if n_stim ≤ 0 then .error (.invalidNStim n_stim)
  else if refresh_rate - (min_frames_per_cycle : ℚ) + 1 < (n_stim : ℚ) then
    .error (.insufficientRange (refresh_rate - (min_frames_per_cycle : ℚ) + 1))
  else
    let divisors : List ℤ :=
      (List.range (pyInt refresh_rate + 1 - min_frames_per_cycle).toNat).map
        (fun i : ℕ => min_frames_per_cycle + (i : ℤ))
    let stable_freqs := divisors.map (fun d : ℤ => refresh_rate / (d : ℚ))
    .ok (stable_freqs.take n_stim.toNat)

/-- `calculate_cycle_params` from `flicker_core.py`:
`frames_per_cycle = int(round(refresh_rate / freq))`,
`on_frames = int(round(frames_per_cycle * duty_cycle))`,
`on_frames = max(1, min(on_frames, frames_per_cycle - 1))`. -/
def calculate_cycle_params (refresh_rate freq duty_cycle : ℚ) : ℤ × ℤ :=
  let frames_per_cycle := pythonRound (refresh_rate / freq)
  let on_frames := pythonRound ((frames_per_cycle : ℚ) * duty_cycle)
  let on_frames := max 1 (min on_frames (frames_per_cycle - 1))
  (frames_per_cycle, on_frames)

/-- Exact `⌈√n⌉` on naturals; equals Python's `math.ceil(math.sqrt(n_stim))`
(whose float sqrt is exact on the relevant range). -/
def intSqrtCeil (n : ℕ) : ℕ :=
  if Nat.sqrt n * Nat.sqrt n = n then Nat.sqrt n else Nat.sqrt n + 1

/-- `cols = math.ceil(math.sqrt(n_stim))` in `generate_positions`. -/
def posCols (n : ℕ) : ℕ := intSqrtCeil n

/-- `rows = math.ceil(n_stim / cols)`: exact ceiling division. -/
def posRows (n : ℕ) : ℕ := (n + posCols n - 1) / posCols n

/-- `spacing_x = 1.0 / (cols - 1) if cols > 1 else 0`. -/
def posSpacingX (n : ℕ) : ℚ :=
  if 1 < posCols n then 1 / ((posCols n : ℚ) - 1) else 0

/-- `spacing_y = 1.0 / (rows - 1) if rows > 1 else 0`. -/
def posSpacingY (n : ℕ) : ℚ :=
  if 1 < posRows n then 1 / ((posRows n : ℚ) - 1) else 0

/-- The coordinate appended for row `r`, column `c` in `generate_positions`:
`x = (c - (cols - 1)/2) * spacing_x`, `y = ((rows - 1)/2 - r) * spacing_y`. -/
def posAt (n r c : ℕ) : ℚ × ℚ :=
  (((c : ℚ) - ((posCols n : ℚ) - 1) / 2) * posSpacingX n,
   (((posRows n : ℚ) - 1) / 2 - (r : ℚ)) * posSpacingY n)

/-- The row-major position list built by the nested loops of
`generate_positions`; the `break` once `len(positions) == n_stim` makes the
result the first `n_stim` entries of the full `rows × cols` grid. -/
def positionsList (n : ℕ) : List (ℚ × ℚ) :=
  (((List.range (posRows n)).flatMap
      (fun r => (List.range (posCols n)).map (fun c => posAt n r c))).take n)

/-- `generate_positions` from `flicker_core.py`.  The source has no
parameter check: `math.sqrt` raises `ValueError` for a negative argument,
and for `n_stim = 0` the computed `cols` is `0`, so
`math.ceil(n_stim / cols)` raises `ZeroDivisionError`. -/
def generate_positions (n_stim : ℤ) : Except FlickerError (List (ℚ × ℚ)) :=
  if n_stim < 0 then .error .sqrtDomain
  else if posCols n_stim.toNat = 0 then .error .zeroDivision
  else .ok (positionsList n_stim.toNat)

/-- `generate_frame_pattern` from `flicker_core.py`:
`pattern.append(1 if frameN % frames_per_cycle < on_frames else 0)` for
`frameN in range(total_frames)`. -/
def generate_frame_pattern (frames_per_cycle on_frames total_frames : ℤ) : List ℤ :=
  (List.range total_frames.toNat).map
    (fun frameN : ℕ => if (frameN : ℤ) % frames_per_cycle < on_frames then 1 else 0)

/-- The inner loop of `scipy.signal.max_len_seq` (Fibonacci LFSR over a
circular state buffer): at each step emit `state[idx]`, xor the tapped
positions into it, store it back, and advance `idx`. -/
def maxLenSeqAux (taps : List ℕ) (nbits : ℕ) :
    ℕ → List ℕ → ℕ → List ℕ → List ℕ
  | 0, _, _, acc => acc.reverse
  | len + 1, state, idx, acc =>
    let feedback := state.getD idx 0
    let fb := taps.foldl (fun b t => b ^^^ state.getD ((t + idx) % nbits) 0) feedback
    maxLenSeqAux taps nbits len (state.set idx fb) ((idx + 1) % nbits) (feedback :: acc)

/-- `scipy.signal.max_len_seq(nbits)` with its default arguments: initial
state all ones, length `2 ^ nbits - 1`, and the tap table entry for
`nbits` (scipy's `_mls_taps[6] = [5]`).  Only the sequence is kept; the
source discards the returned final state. -/
def max_len_seq (nbits : ℕ) (taps : List ℕ) : List ℕ :=
  maxLenSeqAux taps nbits (2 ^ nbits - 1) (List.replicate nbits 1) 0 []

/-- The `base_seq` computed in `calculate_m_sequences`:
`max_len_seq(nbits=6)`. -/
def base_seq : List ℕ := max_len_seq 6 [5]

/-- `numpy.roll(l, shift)` on a 1-D array: `result[i] = l[(i - shift) mod n]`. -/
def np_roll (l : List ℕ) (shift : ℤ) : List ℕ :=
  (List.range l.length).map
    (fun i : ℕ => l.getD (((i : ℤ) - shift) % (l.length : ℤ)).toNat 0)

/-- `calculate_m_sequences` from `flicker_core.py`: `nbits = 6`,
`shift_step = 4`, and for each stimulus `s` in `range(n_stim)` append
`np.roll(base_seq, s * shift_step)`.  There is no collision check and no
failure path. -/
def calculate_m_sequences (n_stim : ℕ) : List (List ℕ) :=
  (List.range n_stim).map (fun s : ℕ => np_roll base_seq ((s : ℤ) * 4))

/-- The value of the length-6 cyclic window of `l` starting at index `i`,
read as a binary number (most significant bit first). -/
def windowCode (l : List ℕ) (i : ℕ) : ℕ :=
  ((List.range 6).map (fun j => l.getD ((i + j) % l.length) 0)).foldl
    (fun a b => 2 * a + b) 0

/-- All length-6 cyclic windows of `l`, one per starting index. -/
def windowCodes (l : List ℕ) : List ℕ :=
  (List.range l.length).map (windowCode l)

/-! ### Rounding lemmas -/

/-- `n` is a nearest integer to `x`: no integer is strictly closer. -/
def isNearestInt (x : ℚ) (n : ℤ) : Prop :=
  ∀ m : ℤ, |x - (n : ℚ)| ≤ |x - (m : ℚ)|

lemma pythonRound_isNearest (x : ℚ) : isNearestInt x (pythonRound x) := by
  intro m
  have h1 : (⌊x⌋ : ℚ) ≤ x := Int.floor_le x
  have h2 : x < ⌊x⌋ + 1 := Int.lt_floor_add_one x
  have hm : (m : ℚ) ≤ (⌊x⌋ : ℚ) ∨ (⌊x⌋ : ℚ) + 1 ≤ (m : ℚ) := by
    rcases le_or_lt m ⌊x⌋ with h | h
    · exact Or.inl (by exact_mod_cast h)
    · exact Or.inr (by exact_mod_cast h)
  unfold pythonRound
  split_ifs with hlt hgt hev
  · rcases hm with hm | hm
    · rw [abs_of_nonneg (by linarith), abs_of_nonneg (by linarith)]; linarith
    · rw [abs_of_nonneg (by linarith), abs_of_nonpos (by linarith)]; linarith
  · push_cast
    rcases hm with hm | hm
    · rw [abs_of_nonpos (by linarith), abs_of_nonneg (by linarith)]; linarith
    · rw [abs_of_nonpos (by linarith), abs_of_nonpos (by linarith)]; linarith
  · have hx : x - ⌊x⌋ = 1/2 := by
      have := not_lt.mp hlt
      have := not_lt.mp hgt
      linarith
    rcases hm with hm | hm
    · rw [abs_of_nonneg (by linarith), abs_of_nonneg (by linarith)]; linarith
    · rw [abs_of_nonneg (by linarith), abs_of_nonpos (by linarith)]; linarith
  · have hx : x - ⌊x⌋ = 1/2 := by
      have := not_lt.mp hlt
      have := not_lt.mp hgt
      linarith
    push_cast
    rcases hm with hm | hm
    · rw [abs_of_nonpos (by linarith), abs_of_nonneg (by linarith)]; linarith
    · rw [abs_of_nonpos (by linarith), abs_of_nonpos (by linarith)]; linarith

/-! ### Claim C2 -/

/-- Claim C2: for every refresh rate `r > 0`, frequency `f > 0` and duty
cycle, `calculate_cycle_params` always yields `1 ≤ on_frames <
frames_per_cycle`.  This FAILS on the code: at `refresh_rate = 60`,
`freq = 60`, `duty_cycle = 1/2` the code computes `frames_per_cycle = 1`
and the clamp `max(1, min(on_frames, 0))` forces `on_frames = 1 =
frames_per_cycle`, so there is no OFF frame — contradicting the code's own
comment ("at least 1 on frame and at least 1 off frame"). -/
theorem claim_C2 :
    calculate_cycle_params 60 60 (1/2) = (1, 1) ∧
    ¬ ((calculate_cycle_params 60 60 (1/2)).2 < (calculate_cycle_params 60 60 (1/2)).1) := by
  have h : calculate_cycle_params 60 60 (1/2) = (1, 1) := by
    norm_num [calculate_cycle_params, pythonRound, Prod.ext_iff]
  exact ⟨h, by rw [h]; decide⟩

/-! ### Claim C5 -/

/-- Claim C5: for every refresh rate `r > 0`, frequency `f > 0` and duty
cycle `d`, `calculate_cycle_params r f d` returns `frames_per_cycle` equal
to the nearest-integer rounding of `r / f` (here: Python's round-half-to-
even, a nearest-integer rounding), and `on_frames` equal to the nearest-
integer rounding of `frames_per_cycle * d` clamped to `[1, frames_per_cycle
- 1]`; in particular `cycle_params(60, 10, 0.5) = (6, 3)` and
`cycle_params(120, 20, 0.25) = (6, 2)`. -/
theorem claim_C5 (r f d : ℚ) (hr : 0 < r) (hf : 0 < f) :
    (calculate_cycle_params 60 10 (1/2) = (6, 3) ∧
     calculate_cycle_params 120 20 (1/4) = (6, 2)) ∧
    isNearestInt (r / f) (calculate_cycle_params r f d).1 ∧
    ∃ raw : ℤ, isNearestInt (((calculate_cycle_params r f d).1 : ℚ) * d) raw ∧
      (calculate_cycle_params r f d).2 = max 1 (min raw ((calculate_cycle_params r f d).1 - 1)) := by
  refine ⟨⟨?_, ?_⟩, pythonRound_isNearest _,
    ⟨pythonRound ((pythonRound (r / f) : ℚ) * d), pythonRound_isNearest _, rfl⟩⟩
  · norm_num [calculate_cycle_params, pythonRound, Prod.ext_iff]
  · norm_num [calculate_cycle_params, pythonRound, Prod.ext_iff]

/-- Witness for C5 at `(60, 10, 1/2)`. -/
theorem claim_C5_witness :
    (0 : ℚ) < 60 ∧ (0 : ℚ) < 10 ∧
    ((calculate_cycle_params 60 10 (1/2) = (6, 3) ∧
      calculate_cycle_params 120 20 (1/4) = (6, 2)) ∧
     isNearestInt (60 / 10) (calculate_cycle_params 60 10 (1/2)).1 ∧
     ∃ raw : ℤ, isNearestInt (((calculate_cycle_params 60 10 (1/2)).1 : ℚ) * (1/2)) raw ∧
       (calculate_cycle_params 60 10 (1/2)).2 =
         max 1 (min raw ((calculate_cycle_params 60 10 (1/2)).1 - 1))) :=
  ⟨by norm_num, by norm_num, claim_C5 60 10 (1/2) (by norm_num) (by norm_num)⟩

/-! ### Claim C4 -/

/-- Claim C4: for every `frames_per_cycle ≥ 1`, every `on_frames` and every
`total_frames ≥ 0`, `generate_frame_pattern` returns a list of length
`total_frames` whose entry at each index `i` is `1` if `i %
frames_per_cycle < on_frames` and `0` otherwise; in particular
`(6, 3, 12)` yields `[1,1,1,0,0,0,1,1,1,0,0,0]`. -/
theorem claim_C4 (fpc onf total : ℤ) (hfpc : 1 ≤ fpc) (htot : 0 ≤ total) :
    (generate_frame_pattern fpc onf total).length = total.toNat ∧
    (∀ i : ℕ, i < total.toNat →
      (generate_frame_pattern fpc onf total)[i]? = some (if (i : ℤ) % fpc < onf then 1 else 0)) ∧
    generate_frame_pattern 6 3 12 = [1, 1, 1, 0, 0, 0, 1, 1, 1, 0, 0, 0] := by
  refine ⟨?_, ?_, rfl⟩
  · unfold generate_frame_pattern
    rw [List.length_map, List.length_range]
  · intro i hi
    unfold generate_frame_pattern
    rw [List.getElem?_map, List.getElem?_range hi, Option.map_some']

/-- Witness for C4 at `(6, 3, 12)`. -/
theorem claim_C4_witness :
    (1 : ℤ) ≤ 6 ∧ (0 : ℤ) ≤ 12 ∧
    ((generate_frame_pattern 6 3 12).length = (12 : ℤ).toNat ∧
     (∀ i : ℕ, i < (12 : ℤ).toNat →
       (generate_frame_pattern 6 3 12)[i]? = some (if (i : ℤ) % 6 < 3 then 1 else 0)) ∧
     generate_frame_pattern 6 3 12 = [1, 1, 1, 0, 0, 0, 1, 1, 1, 0, 0, 0]) :=
  ⟨by norm_num, by norm_num, claim_C4 6 3 12 (by norm_num) (by norm_num)⟩

/-! ### Claim C3 -/

/-- Claim C3: with `refresh_rate > 0`, `min_frames_per_cycle > 0` and
`n_stim > 0`, `calculate_frequencies` fails with the insufficient-range
error exactly when `refresh_rate - min_frames_per_cycle + 1 < n_stim`, and
that error carries (reports in its message) the maximum supported stimulus
count `refresh_rate - min_frames_per_cycle + 1`; otherwise the call
succeeds.  In particular `(60, 3, 59)` fails with maximum `58`. -/
theorem claim_C3 (r : ℚ) (m n : ℤ) (hr : 0 < r) (hm : 0 < m) (hn : 0 < n) :
    calculate_frequencies 60 3 59 = .error (.insufficientRange 58) ∧
    (r - (m : ℚ) + 1 < (n : ℚ) →
      calculate_frequencies r m n = .error (.insufficientRange (r - (m : ℚ) + 1))) ∧
    ((n : ℚ) ≤ r - (m : ℚ) + 1 → ∃ l, calculate_frequencies r m n = .ok l) := by
  refine ⟨?_, ?_, ?_⟩
  · have h58 : (60 : ℚ) - ((3 : ℤ) : ℚ) + 1 = 58 := by norm_num
    unfold calculate_frequencies
    rw [if_neg (by norm_num), if_neg (by norm_num), if_neg (by norm_num),
      if_pos (by norm_num), h58]
  · intro h
    unfold calculate_frequencies
    rw [if_neg (not_le.mpr hr), if_neg (not_le.mpr hm), if_neg (not_le.mpr hn), if_pos h]
  · intro h
    unfold calculate_frequencies
    rw [if_neg (not_le.mpr hr), if_neg (not_le.mpr hm), if_neg (not_le.mpr hn),
      if_neg (not_lt.mpr h)]
    exact ⟨_, rfl⟩

/-- Witness for C3 at `(60, 3, 5)` (success side) with positive parameters. -/
theorem claim_C3_witness :
    (0 : ℚ) < 60 ∧ (0 : ℤ) < 3 ∧ (0 : ℤ) < 5 ∧
    (calculate_frequencies 60 3 59 = .error (.insufficientRange 58) ∧
     ((60 : ℚ) - ((3 : ℤ) : ℚ) + 1 < ((5 : ℤ) : ℚ) →
       calculate_frequencies 60 3 5 =
         .error (.insufficientRange (60 - ((3 : ℤ) : ℚ) + 1))) ∧
     (((5 : ℤ) : ℚ) ≤ 60 - ((3 : ℤ) : ℚ) + 1 → ∃ l, calculate_frequencies 60 3 5 = .ok l)) :=
  ⟨by norm_num, by norm_num, by norm_num, claim_C3 60 3 5 (by norm_num) (by norm_num) (by norm_num)⟩

/-! ### Claim C1 -/

/-- Claim C1: for every `refresh_rate r > 0`, integer `min_frames_per_cycle
m > 0` and integer `n_stim n > 0` with `r - m + 1 ≥ n`,
`calculate_frequencies r m n` succeeds with a list of exactly `n`
frequencies whose `i`-th element is `r / (m + i)`; consequently the values
are strictly decreasing and `r` divided by each returned frequency is an
integer. -/
theorem claim_C1 (r : ℚ) (m n : ℤ) (hr : 0 < r) (hm : 0 < m) (hn : 0 < n)
    (hrange : (n : ℚ) ≤ r - (m : ℚ) + 1) :
    ∃ l, calculate_frequencies r m n = .ok l ∧
      l.length = n.toNat ∧
      (∀ i : ℕ, i < n.toNat → l[i]? = some (r / ((m : ℚ) + (i : ℚ)))) ∧
      l.Pairwise (· > ·) ∧
      (∀ q ∈ l, ∃ d : ℤ, r / q = (d : ℚ)) := by
  have hK : n.toNat ≤ (pyInt r + 1 - m).toNat := by
    apply Int.toNat_le_toNat
    have hfloor : n + m - 1 ≤ ⌊r⌋ := by
      rw [Int.le_floor]
      push_cast
      linarith
    unfold pyInt
    rw [if_neg (not_lt.mpr hr.le)]
    omega
  refine ⟨(List.range n.toNat).map (fun i : ℕ => r / ((m : ℚ) + (i : ℚ))), ?_, ?_, ?_, ?_, ?_⟩
  · unfold calculate_frequencies
    rw [if_neg (not_le.mpr hr), if_neg (not_le.mpr hm), if_neg (not_le.mpr hn),
      if_neg (not_lt.mpr hrange)]
    dsimp only
    congr 1
    rw [List.map_map, ← List.map_take, List.take_range, Nat.min_eq_left hK]
    apply List.map_congr_left
    intro i _
    simp only [Function.comp_apply]
    push_cast
    rfl
  · rw [List.length_map, List.length_range]
  · intro i hi
    rw [List.getElem?_map, List.getElem?_range hi, Option.map_some']
  · rw [List.pairwise_map]
    refine (List.pairwise_lt_range n.toNat).imp ?_
    intro a b hab
    have hm1 : (1 : ℚ) ≤ (m : ℚ) := by exact_mod_cast hm
    have ha0 : (0 : ℚ) ≤ (a : ℚ) := Nat.cast_nonneg a
    have hma : (0 : ℚ) < (m : ℚ) + (a : ℚ) := by linarith
    exact div_lt_div_of_pos_left hr hma (by
      have : (a : ℚ) < (b : ℚ) := by exact_mod_cast hab
      linarith)
  · intro q hq
    obtain ⟨i, _, rfl⟩ := List.mem_map.mp hq
    refine ⟨m + (i : ℤ), ?_⟩
    push_cast
    rw [div_div_eq_mul_div, mul_div_cancel_left₀ _ hr.ne']

/-- Witness for C1 at `(60, 3, 5)`. -/
theorem claim_C1_witness :
    (0 : ℚ) < 60 ∧ (0 : ℤ) < 3 ∧ (0 : ℤ) < 5 ∧ ((5 : ℤ) : ℚ) ≤ 60 - ((3 : ℤ) : ℚ) + 1 ∧
    (∃ l, calculate_frequencies 60 3 5 = .ok l ∧
      l.length = (5 : ℤ).toNat ∧
      (∀ i : ℕ, i < (5 : ℤ).toNat → l[i]? = some (60 / (((3 : ℤ) : ℚ) + (i : ℚ)))) ∧
      l.Pairwise (· > ·) ∧
      (∀ q ∈ l, ∃ d : ℤ, 60 / q = (d : ℚ))) :=
  ⟨by norm_num, by norm_num, by norm_num, by norm_num,
    claim_C1 60 3 5 (by norm_num) (by norm_num) (by norm_num) (by norm_num)⟩

/-! ### Claim C7 -/

set_option maxRecDepth 100000 in
/-- Claim C7: the base sequence generated with bit depth 6
(`max_len_seq(6)`) has length `2^6 - 1 = 63`, and it has the
maximal-length property: every non-zero 6-bit window of consecutive bits
(read cyclically, encoded as a number in `1..63`) appears exactly once per
period. -/
theorem claim_C7 :
    base_seq.length = 63 ∧
    ((List.range 63).all fun p => (windowCodes base_seq).count (p + 1) == 1) = true := by
  constructor
  · decide
  · decide

/-! ### Claim C6 -/

/-- Claim C6, amended: stimulus `s` receives the base sequence cyclically
rotated by `s * shift_step` (`shift_step = 4`, sequence length 63), and for
`n_stim ≤ 63` the rotation amounts are pairwise distinct modulo the
sequence length; but the code has no failure path at all, so collisions are
never reported (see the counterexample for `n_stim = 64`). -/
theorem claim_C6 (n : ℕ) (hn : n ≤ 63) :
    (calculate_m_sequences n).length = n ∧
    (∀ s : ℕ, s < n →
      (calculate_m_sequences n)[s]? = some (np_roll base_seq ((s : ℤ) * 4))) ∧
    (∀ s t : ℕ, s < n → t < n → s ≠ t → (s * 4) % 63 ≠ (t * 4) % 63) := by
  refine ⟨?_, ?_, ?_⟩
  · unfold calculate_m_sequences
    rw [List.length_map, List.length_range]
  · intro s hs
    unfold calculate_m_sequences
    rw [List.getElem?_map, List.getElem?_range hs, Option.map_some']
  · intro s t hs ht hne heq
    have h2 : s ≡ t [MOD 63] :=
      Nat.ModEq.cancel_right_of_coprime (by decide) heq
    rw [Nat.ModEq, Nat.mod_eq_of_lt (lt_of_lt_of_le hs hn),
      Nat.mod_eq_of_lt (lt_of_lt_of_le ht hn)] at h2
    exact hne h2

/-- Witness for C6 (amended) at `n_stim = 3`. -/
theorem claim_C6_witness :
    3 ≤ 63 ∧
    ((calculate_m_sequences 3).length = 3 ∧
     (∀ s : ℕ, s < 3 →
       (calculate_m_sequences 3)[s]? = some (np_roll base_seq ((s : ℤ) * 4))) ∧
     (∀ s t : ℕ, s < 3 → t < 3 → s ≠ t → (s * 4) % 63 ≠ (t * 4) % 63)) :=
  ⟨by decide, claim_C6 3 (by decide)⟩

set_option maxRecDepth 100000 in
/-- Claim C6, counterexample to the claim as stated: at `n_stim = 64`
stimulus 63 receives rotation `63 * 4 = 252 ≡ 0 (mod 63)`, colliding with
stimulus 0, yet `calculate_m_sequences` raises no `SequenceCollision`
error: it returns the full 64-element list, with the aliased sequence
`patterns[63] = patterns[0]`. -/
theorem claim_C6_counterexample :
    (calculate_m_sequences 64).length = 64 ∧
    (calculate_m_sequences 64)[63]? = (calculate_m_sequences 64)[0]? ∧
    (63 * 4) % 63 = (0 * 4) % 63 := by
  refine ⟨?_, ?_, ?_⟩
  · decide
  · decide
  · decide

/-! ### Grid helper lemmas for `generate_positions` -/

lemma length_grid {α : Type} (f : ℕ → ℕ → α) (R C : ℕ) :
    ((List.range R).flatMap fun r => (List.range C).map (f r)).length = R * C := by
  induction R with
  | zero => simp
  | succ R ih =>
    rw [List.range_succ, List.flatMap_append]
    simp [ih, Nat.succ_mul]

lemma getElem?_grid {α : Type} (f : ℕ → ℕ → α) (R C i : ℕ) (hi : i < R * C) :
    ((List.range R).flatMap fun r => (List.range C).map (f r))[i]? =
      some (f (i / C) (i % C)) := by
  induction R with
  | zero =>
    rw [Nat.zero_mul] at hi
    exact absurd hi (Nat.not_lt_zero i)
  | succ R ih =>
    rw [List.range_succ, List.flatMap_append]
    by_cases h : i < R * C
    · rw [List.getElem?_append_left (by rw [length_grid]; exact h)]
      exact ih h
    · have hle : R * C ≤ i := Nat.le_of_not_lt h
      have hiC : i < R * C + C := by rw [Nat.succ_mul] at hi; exact hi
      obtain ⟨j, hj, rfl⟩ : ∃ j, j < C ∧ i = R * C + j :=
        ⟨i - R * C,
          Nat.lt_of_add_lt_add_left
            (show R * C + (i - R * C) < R * C + C by
              rw [Nat.add_sub_cancel' hle]; exact hiC),
          (Nat.add_sub_cancel' hle).symm⟩
      have hC : 0 < C := Nat.lt_of_le_of_lt (Nat.zero_le j) hj
      rw [List.getElem?_append_right (by rw [length_grid]; exact Nat.le_add_right _ _),
        length_grid, Nat.add_sub_cancel_left]
      simp only [List.flatMap_cons, List.flatMap_nil, List.append_nil]
      rw [List.getElem?_map, List.getElem?_range hj, Option.map_some']
      have hdiv : (R * C + j) / C = R := by
        rw [Nat.add_comm, Nat.add_mul_div_right _ _ hC, Nat.div_eq_of_lt hj, Nat.zero_add]
      have hmod : (R * C + j) % C = j := by
        rw [Nat.add_comm, Nat.add_mul_mod_self_right, Nat.mod_eq_of_lt hj]
      rw [hdiv, hmod]

lemma posCols_pos {n : ℕ} (hn : 1 ≤ n) : 0 < posCols n := by
  unfold posCols intSqrtCeil
  split_ifs with h
  · rcases Nat.eq_zero_or_pos (Nat.sqrt n) with h0 | h0
    · rw [h0] at h
      omega
    · exact h0
  · exact Nat.succ_pos _

lemma cols_sq_ge (n : ℕ) : n ≤ posCols n * posCols n := by
  unfold posCols intSqrtCeil
  split_ifs with h
  · omega
  · exact Nat.le_of_lt (Nat.lt_succ_sqrt n)

lemma cols_pred_sq_lt {n : ℕ} (hn : 1 ≤ n) : (posCols n - 1) * (posCols n - 1) < n := by
  unfold posCols intSqrtCeil
  split_ifs with h
  · have h1 : 1 ≤ Nat.sqrt n := by
      rcases Nat.eq_zero_or_pos (Nat.sqrt n) with h0 | h0
      · rw [h0] at h
        omega
      · exact h0
    calc (Nat.sqrt n - 1) * (Nat.sqrt n - 1) < Nat.sqrt n * Nat.sqrt n := by
          apply Nat.mul_self_lt_mul_self
          omega
      _ = n := h
  · rw [Nat.add_sub_cancel]
    exact Nat.lt_of_le_of_ne (Nat.sqrt_le n) h

lemma rows_mul_ge (n : ℕ) (hc : 0 < posCols n) : n ≤ posRows n * posCols n := by
  obtain ⟨k, hk⟩ : ∃ k, posCols n = k + 1 := ⟨posCols n - 1, by omega⟩
  unfold posRows
  rw [hk]
  have he : n + (k + 1) - 1 = n + k := by omega
  rw [he]
  have h := Nat.div_add_mod (n + k) (k + 1)
  have h2 : (n + k) % (k + 1) < k + 1 := Nat.mod_lt _ (Nat.succ_pos k)
  linarith [h, h2]

lemma rows_pred_mul_lt (n : ℕ) (hn : 1 ≤ n) (hc : 0 < posCols n) :
    (posRows n - 1) * posCols n < n := by
  obtain ⟨k, hk⟩ : ∃ k, posCols n = k + 1 := ⟨posCols n - 1, by omega⟩
  unfold posRows
  rw [hk]
  have he : n + (k + 1) - 1 = n + k := by omega
  rw [he]
  have hq1 : 1 ≤ (n + k) / (k + 1) := by
    rw [Nat.one_le_div_iff (Nat.succ_pos k)]
    omega
  obtain ⟨q, hq⟩ : ∃ q, (n + k) / (k + 1) = q + 1 := ⟨(n + k) / (k + 1) - 1, by omega⟩
  have h := Nat.div_add_mod (n + k) (k + 1)
  rw [hq] at h ⊢
  have h2 : (n + k) % (k + 1) < k + 1 := Nat.mod_lt _ (Nat.succ_pos k)
  simp only [Nat.add_sub_cancel]
  obtain ⟨w, hw⟩ : ∃ w, (n + k) % (k + 1) = w := ⟨_, rfl⟩
  rw [hw] at h h2
  linarith [h, h2]

lemma generate_positions_ok {n : ℕ} (hn : 1 ≤ n) :
    generate_positions (n : ℤ) = .ok (positionsList n) := by
  unfold generate_positions
  rw [if_neg (not_lt.mpr (Int.natCast_nonneg n)), Int.toNat_natCast,
    if_neg (posCols_pos hn).ne']

lemma sqrt_nine : Nat.sqrt 9 = 3 := by
  rw [show (9 : ℕ) = 3 * 3 from rfl]
  exact Nat.sqrt_eq 3

lemma cols_nine : posCols 9 = 3 := by
  unfold posCols intSqrtCeil
  rw [sqrt_nine]
  norm_num

lemma rows_nine : posRows 9 = 3 := by
  unfold posRows
  rw [cols_nine]

lemma positionsList_nine : positionsList 9 =
    [(-(1/2), 1/2), (0, 1/2), (1/2, 1/2),
     (-(1/2), 0), (0, 0), (1/2, 0),
     (-(1/2), -(1/2)), (0, -(1/2)), (1/2, -(1/2))] := by
  unfold positionsList posAt posSpacingX posSpacingY
  rw [cols_nine, rows_nine]
  norm_num [List.range_succ, List.flatMap_append, List.flatMap_cons, List.flatMap_nil,
    Prod.ext_iff]

/-! ### Claim C8 -/

/-- Claim C8: for every `n_stim ≥ 1`, `generate_positions` succeeds and
emits exactly `n_stim` positions in row-major order on a grid with
`cols = ⌈√n_stim⌉` (the least integer whose square reaches `n_stim`) and
`rows = ⌈n_stim / cols⌉` (the least multiplier of `cols` reaching
`n_stim`), the position at index `i` being `posAt` of row `i / cols` and
column `i % cols` (the stated `x`/`y`/spacing formulas); emission stops at
`n_stim` positions.  In particular `generate_positions(9)` is a 3×3 grid
centred at the origin, symmetric about both axes. -/
theorem claim_C8 (n : ℕ) (hn : 1 ≤ n) :
    generate_positions (n : ℤ) = .ok (positionsList n) ∧
    (positionsList n).length = n ∧
    (∀ i : ℕ, i < n →
      (positionsList n)[i]? = some (posAt n (i / posCols n) (i % posCols n))) ∧
    (n ≤ posCols n * posCols n ∧ (posCols n - 1) * (posCols n - 1) < n) ∧
    (n ≤ posRows n * posCols n ∧ (posRows n - 1) * posCols n < n) ∧
    positionsList 9 =
      [(-(1/2), 1/2), (0, 1/2), (1/2, 1/2),
       (-(1/2), 0), (0, 0), (1/2, 0),
       (-(1/2), -(1/2)), (0, -(1/2)), (1/2, -(1/2))] ∧
    (∀ p ∈ positionsList 9,
      (-p.1, p.2) ∈ positionsList 9 ∧ (p.1, -p.2) ∈ positionsList 9) := by
  have hc := posCols_pos hn
  refine ⟨generate_positions_ok hn, ?_, ?_, ⟨cols_sq_ge n, cols_pred_sq_lt hn⟩,
    ⟨rows_mul_ge n hc, rows_pred_mul_lt n hn hc⟩, positionsList_nine, ?_⟩
  · unfold positionsList
    rw [List.length_take, length_grid, Nat.min_eq_left (rows_mul_ge n hc)]
  · intro i hi
    unfold positionsList
    rw [List.getElem?_take, if_pos hi]
    exact getElem?_grid (posAt n) (posRows n) (posCols n) i
      (Nat.lt_of_lt_of_le hi (rows_mul_ge n hc))
  · rw [positionsList_nine]
    intro p hp
    fin_cases hp <;> norm_num

/-- Witness for C8 at `n_stim = 9`. -/
theorem claim_C8_witness :
    1 ≤ 9 ∧
    (generate_positions ((9 : ℕ) : ℤ) = .ok (positionsList 9) ∧
     (positionsList 9).length = 9 ∧
     (∀ i : ℕ, i < 9 →
       (positionsList 9)[i]? = some (posAt 9 (i / posCols 9) (i % posCols 9))) ∧
     (9 ≤ posCols 9 * posCols 9 ∧ (posCols 9 - 1) * (posCols 9 - 1) < 9) ∧
     (9 ≤ posRows 9 * posCols 9 ∧ (posRows 9 - 1) * posCols 9 < 9) ∧
     positionsList 9 =
       [(-(1/2), 1/2), (0, 1/2), (1/2, 1/2),
        (-(1/2), 0), (0, 0), (1/2, 0),
        (-(1/2), -(1/2)), (0, -(1/2)), (1/2, -(1/2))] ∧
     (∀ p ∈ positionsList 9,
       (-p.1, p.2) ∈ positionsList 9 ∧ (p.1, -p.2) ∈ positionsList 9)) :=
  ⟨by norm_num, claim_C8 9 (by norm_num)⟩

/-! ### Claim C9 -/

/-- Claim C9, amended: `generate_positions` fails for every `n_stim ≤ 0`
and succeeds for every `n_stim > 0` with no other failure path — but the
failures are not a parameter-validation (`InvalidParameter`) check: the
source has no precondition at all, and what fails is `math.sqrt` (domain
`ValueError`) for `n_stim < 0` and the `rows` division (`ZeroDivisionError`,
because `cols = 0`) for `n_stim = 0`. -/
theorem claim_C9 (m : ℤ) :
    (0 < m → generate_positions m = .ok (positionsList m.toNat)) ∧
    (m = 0 → generate_positions m = .error .zeroDivision) ∧
    (m < 0 → generate_positions m = .error .sqrtDomain) := by
  refine ⟨?_, ?_, ?_⟩
  · intro h
    have h1 : 1 ≤ m.toNat := by omega
    unfold generate_positions
    rw [if_neg (not_lt.mpr (le_of_lt h)), if_neg (posCols_pos h1).ne']
  · intro h
    subst h
    unfold generate_positions
    rw [if_neg (by norm_num)]
    rw [if_pos (by unfold posCols intSqrtCeil; norm_num)]
  · intro h
    unfold generate_positions
    rw [if_pos h]

/-- Witness for C9 (amended), discharging each side at a concrete input. -/
theorem claim_C9_witness :
    generate_positions 2 = .ok (positionsList (2 : ℤ).toNat) ∧
    generate_positions 0 = .error .zeroDivision ∧
    generate_positions (-3) = .error .sqrtDomain :=
  ⟨(claim_C9 2).1 (by norm_num), (claim_C9 0).2.1 rfl, (claim_C9 (-3)).2.2 (by norm_num)⟩

/-- Claim C9, counterexample to the claim as stated: at `n_stim = 0` the
code fails with the `ZeroDivisionError` from `math.ceil(n_stim / cols)`
(and at `n_stim = -1` with the `ValueError` from `math.sqrt`), not with an
`InvalidParameter` precondition error — no parameter check exists in
`generate_positions`. -/
theorem claim_C9_counterexample :
    generate_positions 0 = .error .zeroDivision ∧
    generate_positions (-1) = .error .sqrtDomain := by
  constructor
  · unfold generate_positions
    rw [if_neg (by norm_num)]
    rw [if_pos (by unfold posCols intSqrtCeil; norm_num)]
  · unfold generate_positions
    rw [if_pos (by norm_num)]

/-! ### Claim C10 -/

lemma coord_bound {C cc : ℕ} (h : cc < C) :
    -(1/2 : ℚ) ≤ ((cc : ℚ) - ((C : ℚ) - 1) / 2) * (if 1 < C then 1 / ((C : ℚ) - 1) else 0) ∧
    ((cc : ℚ) - ((C : ℚ) - 1) / 2) * (if 1 < C then 1 / ((C : ℚ) - 1) else 0) ≤ 1/2 := by
  by_cases hC : 1 < C
  · rw [if_pos hC]
    have hD : (0 : ℚ) < (C : ℚ) - 1 := by
      have h1 : (1 : ℚ) < (C : ℚ) := by exact_mod_cast hC
      linarith
    have hcc : (cc : ℚ) ≤ (C : ℚ) - 1 := by
      have h1 : (cc : ℚ) + 1 ≤ (C : ℚ) := by exact_mod_cast h
      linarith
    have hcc0 : (0 : ℚ) ≤ (cc : ℚ) := Nat.cast_nonneg cc
    constructor
    · rw [mul_one_div, le_div_iff₀ hD]
      linarith
    · rw [mul_one_div, div_le_iff₀ hD]
      linarith
  · rw [if_neg hC]
    norm_num

/-- Claim C10: every coordinate pair returned by `generate_positions`
(for any `n_stim ≥ 1`, including single-row, single-column and partially
filled grids) lies within `[-1/2, 1/2] × [-1/2, 1/2]`. -/
theorem claim_C10 (n : ℕ) (hn : 1 ≤ n) (l : List (ℚ × ℚ))
    (hl : generate_positions (n : ℤ) = .ok l) :
    ∀ p ∈ l, -(1/2 : ℚ) ≤ p.1 ∧ p.1 ≤ 1/2 ∧ -(1/2 : ℚ) ≤ p.2 ∧ p.2 ≤ 1/2 := by
  rw [generate_positions_ok hn] at hl
  obtain rfl : positionsList n = l := by
    injection hl
  intro p hp
  have hp2 : p ∈ (List.range (posRows n)).flatMap
      (fun r => (List.range (posCols n)).map (fun c => posAt n r c)) :=
    List.take_subset _ _ hp
  rw [List.mem_flatMap] at hp2
  obtain ⟨r, hr, hp3⟩ := hp2
  rw [List.mem_map] at hp3
  obtain ⟨c, hc, rfl⟩ := hp3
  rw [List.mem_range] at hr hc
  have hx := coord_bound hc
  have hy := coord_bound hr
  unfold posAt posSpacingX posSpacingY
  refine ⟨hx.1, hx.2, ?_, ?_⟩
  · have hneg : (((posRows n : ℚ) - 1) / 2 - (r : ℚ)) *
        (if 1 < posRows n then 1 / ((posRows n : ℚ) - 1) else 0) =
        -(((r : ℚ) - ((posRows n : ℚ) - 1) / 2) *
          (if 1 < posRows n then 1 / ((posRows n : ℚ) - 1) else 0)) := by
      ring
    rw [hneg]
    linarith [hy.2]
  · have hneg : (((posRows n : ℚ) - 1) / 2 - (r : ℚ)) *
        (if 1 < posRows n then 1 / ((posRows n : ℚ) - 1) else 0) =
        -(((r : ℚ) - ((posRows n : ℚ) - 1) / 2) *
          (if 1 < posRows n then 1 / ((posRows n : ℚ) - 1) else 0)) := by
      ring
    rw [hneg]
    linarith [hy.1]

/-- Witness for C10 at `n_stim = 2`. -/
theorem claim_C10_witness :
    1 ≤ 2 ∧
    (∀ p ∈ positionsList 2,
      -(1/2 : ℚ) ≤ p.1 ∧ p.1 ≤ 1/2 ∧ -(1/2 : ℚ) ≤ p.2 ∧ p.2 ≤ 1/2) :=
  ⟨by norm_num,
    claim_C10 2 (by norm_num) (positionsList 2) (generate_positions_ok (by norm_num))⟩
